import Mathlib

/-!
Shallow embedding of `fake_menstruator.py` and verification of its
specification.

Modelling conventions:

* A Python `timedelta` is stored, as in CPython, as an integer count of
  microseconds (CPython normalises to days/seconds/microseconds; the total
  microsecond count is the same information).  `timedelta(days = x)` rounds
  the requested duration to whole microseconds, ties to even
  (`roundHalfEven`); the compounding of binary floating-point rounding that
  CPython performs before that final rounding is elided — sampler outputs
  are modelled as exact rationals.
* A Python `date` is its proleptic-Gregorian ordinal, an integer
  (`date.toordinal`).  `date + timedelta` adds only the whole-day component
  `timedelta.days` of the delta (CPython: `date.__add__` uses `other.days`),
  which for a normalised delta is the floor of the duration in days.
  Python's bounds `date.min`/`date.max` are idealised away: ordinals are
  unbounded integers.
* The process-wide `random` module and any state consumed by the
  caller-supplied sampler callables are modelled by one explicit state type
  `σ` threaded through every call: a sampler is a function `σ → ℚ × σ`.
  The `random` module's primitives used by this program are bundled in
  `RandomModule`.
* The Python class `menstruator` stores a hook that receives the
  `menstruator` itself.  Since the hook only uses the sampler methods
  (`get_cycle_length`, `get_bleed_length`) and the description, the fields
  the hook can see are split into `menstruatorBase`, and the hook receives
  that base view; `menstruator` extends the base with the hook slot.
-/

/-- Round the fraction `a / b` (with `b` a positive natural) to the
nearest integer, ties to even (CPython's `_divide_and_round`, used when
building a `timedelta` from a float).  `f` is the floor of the fraction
and `r2` twice the fractional remainder's numerator, compared against the
denominator to decide the direction of rounding. -/
def roundHalfEvenFrac (a : ℤ) (b : ℕ) : ℤ :=
  let f := a.fdiv b
  let r2 := 2 * (a - f * b)
  if r2 < b then f
  else if (b : ℤ) < r2 then f + 1
  else if f % 2 = 0 then f else f + 1

/-- Microseconds per day: 24 * 3600 * 10^6. -/
def usPerDay : ℤ := 86400000000

/-- Python `datetime.timedelta`, as its total signed microsecond count. -/
structure timedelta where
  micros : ℤ
deriving DecidableEq

/-- `timedelta(days = d)` for a real (here: rational) number of days:
`d * usPerDay` microseconds rounded to the nearest whole microsecond,
ties to even — computed on the exact fraction
`(d.num * usPerDay) / d.den`. -/
def timedelta.ofDays (d : ℚ) : timedelta :=
  ⟨roundHalfEvenFrac (d.num * usPerDay) d.den⟩

/-- The `.days` attribute of a normalised `timedelta`: floor division of the
microsecond total by the microseconds in a day. -/
def timedelta.days (t : timedelta) : ℤ :=
  Int.fdiv t.micros usPerDay

instance : Sub timedelta := ⟨fun a b => ⟨a.micros - b.micros⟩⟩

/-- Cumulative days before each month in a non-leap year (Python
`_DAYS_BEFORE_MONTH`). -/
def monthOffsets : List ℤ :=
  [0, 31, 59, 90, 120, 151, 181, 212, 243, 273, 304, 334]

/-- Gregorian leap-year test (Python `calendar.isleap`). -/
def is_leap (y : ℤ) : Bool :=
  y % 4 == 0 && (y % 100 != 0 || y % 400 == 0)

/-- Python `date(y, m, d).toordinal()`: days since 0001-01-01, plus one. -/
def toordinal (y m d : ℤ) : ℤ :=
  365 * (y - 1) + Int.fdiv (y - 1) 4 - Int.fdiv (y - 1) 100
    + Int.fdiv (y - 1) 400
    + monthOffsets.getD (m - 1).toNat 0
    + (if 2 < m ∧ is_leap y then 1 else 0) + d

/-- `CycleEvent = Tuple[timedelta, timedelta, str]` (source line 28): an
override of one cycle's inter-cycle interval, bleed length and note. -/
abbrev CycleEvent := timedelta × timedelta × String

/-- One generated cycle record `(start_date, bleed_length, cycle_note)`. -/
abbrev CycleRecord := ℤ × timedelta × Option String

/-- The part of the `menstruator` object visible to an event hook: the
description and the two sampler callables (each threading the random
state `σ`). -/
structure menstruatorBase (σ : Type) where
  description : String
  cycle_length_generator : σ → ℚ × σ
  bleed_length_generator : σ → ℚ × σ

/-- The `menstruator` class: the base fields plus the optional
`event_generator` hook, which receives the profile (its base view). -/
structure menstruator (σ : Type) extends menstruatorBase σ where
  event_generator : Option (menstruatorBase σ → σ → Option CycleEvent × σ)

/-- Method `get_cycle_length`: one fresh draw from the cycle-length
sampler. -/
def menstruatorBase.get_cycle_length {σ : Type} (m : menstruatorBase σ)
    (s : σ) : ℚ × σ :=
  m.cycle_length_generator s

/-- Method `get_bleed_length`: one fresh draw from the bleed-length
sampler. -/
def menstruatorBase.get_bleed_length {σ : Type} (m : menstruatorBase σ)
    (s : σ) : ℚ × σ :=
  m.bleed_length_generator s

/-- Method `cycle_event_hook`: `None` when no hook is bound, otherwise the
hook applied to the profile itself. -/
def menstruator.cycle_event_hook {σ : Type} (m : menstruator σ) (s : σ) :
    Option CycleEvent × σ :=
  match m.event_generator with
  | none => (none, s)
  | some g => g m.tomenstruatorBase s

/-- The loop body of `generate_cycles`, recursing on the number of
remaining iterations; `i` is the Python loop index (the
`initial_cycle_day` subtraction applies only when `i = 0`). -/
def menstruator.genLoop {σ : Type} (m : menstruator σ)
    (initial_cycle_day : ℤ) :
    ℕ → ℕ → ℤ → σ → List CycleRecord × σ
  | 0, _, _, s => ([], s)
  | k + 1, i, start_date, s =>
    let c := m.get_cycle_length s
    let nc0 := timedelta.ofDays c.1
    let nc1 := if i = 0 then nc0 - timedelta.ofDays (initial_cycle_day : ℚ)
               else nc0
    let b := m.get_bleed_length c.2
    let e := m.cycle_event_hook b.2
    let nc := match e.1 with
              | some ev => ev.1
              | none => nc1
    let bl := match e.1 with
              | some ev => ev.2.1
              | none => timedelta.ofDays b.1
    let note : Option String := match e.1 with
              | some ev => some ev.2.2
              | none => none
    let start2 := start_date + nc.days
    let rest := menstruator.genLoop m initial_cycle_day k (i + 1) start2 e.2
    ((start2, bl, note) :: rest.1, rest.2)

/-- `menstruator.generate_cycles` (source lines 54–72).  `count` may be any
integer (Python `range(count)` is empty for `count ≤ 0`).  `start_date` is
always supplied (the `None → date.today()` default is ambient input outside
the core).  Returns the cycle list together with the final random state. -/
def menstruator.generate_cycles {σ : Type} (m : menstruator σ)
    (start_date : ℤ) (count : ℤ) (initial_cycle_day : ℤ) (s : σ) :
    List CycleRecord × σ :=
  menstruator.genLoop m initial_cycle_day count.toNat 0 start_date s

/-- The primitives of the process-wide `random` module used by this
program, as explicit state transformers. -/
structure RandomModule (σ : Type) where
  random : σ → ℚ × σ
  uniform : ℚ → ℚ → σ → ℚ × σ
  gauss : ℚ → ℚ → σ → ℚ × σ

/-- `check_incomplete_pregnancy` (source lines 74–83).  With the module's
`random()` draw below `p`: a fresh cycle-length draw from the user profile,
times a `uniform(2, 3)` draw, becomes the override interval; a fresh
bleed-length draw becomes the override bleed; otherwise no override. -/
def check_incomplete_pregnancy {σ : Type} (R : RandomModule σ)
    (user : menstruatorBase σ) (p : ℚ) (s : σ) : Option CycleEvent × σ :=
  let r := R.random s
  if r.1 < p then
    let c := user.get_cycle_length r.2
    let u := R.uniform 2 3 c.2
    let long_cycle := c.1 * u.1
    let b := user.get_bleed_length u.2
    (some (timedelta.ofDays long_cycle, timedelta.ofDays b.1,
           "Was pregnant, aborted or miscarried"), b.2)
  else
    (none, r.2)

/-- Python `f"{q:.1f}"` on an exact rational: one digit after the point,
rounding ties to even (binary floating-point representation nuances are
elided). -/
def fmt1 (q : ℚ) : String :=
  let t := roundHalfEvenFrac (q.num * 10) q.den
  let sign := if t < 0 then "-" else ""
  sign ++ toString (t.natAbs / 10) ++ "." ++ toString (t.natAbs % 10)

/-- `create_default_menstruator` (source lines 85–131): draw the user's
cycle-length mean and spread once each, bind the cycle-length sampler to the
personalised Gaussian, the bleed-length sampler to the fixed population
Gaussian, and bind the incomplete-pregnancy hook with p = 0.025. -/
def create_default_menstruator {σ : Type} (R : RandomModule σ) (s : σ) :
    menstruator σ × σ :=
  let u1 := R.gauss 29.3 5.2 s
  let user_cycle_mu := u1.1
  let u2 := R.gauss 2.6 2.5 u1.2
  let user_cycle_sigma := u2.1
  let description := "Cycle length " ++ fmt1 user_cycle_mu
      ++ "+-" ++ fmt1 user_cycle_sigma ++ " days; "
      ++ "bleed length " ++ fmt1 4.0
      ++ "+-" ++ fmt1 1.5 ++ " days."
  ({ description := description
     cycle_length_generator := fun t => R.gauss user_cycle_mu user_cycle_sigma t
     bleed_length_generator := fun t => R.gauss 4.0 1.5 t
     event_generator :=
       some (fun self t => check_incomplete_pregnancy R self 0.025 t) }, u2.2)

/-!
Trace functions.  `generate_cycles` threads the random state through three
calls per iteration (cycle draw, bleed draw, hook).  The functions below
name the state at each point of the trace and the values drawn there, so
that theorems can speak about "the i-th iteration's sampled cycle length"
and "the hook's result on the i-th cycle".
-/

/-- The state at which the hook is invoked, given the state at the start of
an iteration: after the cycle-length draw and then the bleed-length draw. -/
def hookState0 {σ : Type} (m : menstruator σ) (s : σ) : σ :=
  (m.get_bleed_length (m.get_cycle_length s).2).2

/-- The state after one full loop iteration (cycle draw, bleed draw, hook). -/
def stepState {σ : Type} (m : menstruator σ) (s : σ) : σ :=
  (m.cycle_event_hook (hookState0 m s)).2

/-- The state at the start of iteration `i`, running from initial state `s`. -/
def iterState {σ : Type} (m : menstruator σ) (s : σ) (i : ℕ) : σ :=
  (stepState m)^[i] s

/-- The cycle length sampled at iteration `i`. -/
def cycDraw {σ : Type} (m : menstruator σ) (s : σ) (i : ℕ) : ℚ :=
  (m.get_cycle_length (iterState m s i)).1

/-- The bleed length sampled at iteration `i`. -/
def bldDraw {σ : Type} (m : menstruator σ) (s : σ) (i : ℕ) : ℚ :=
  (m.get_bleed_length (m.get_cycle_length (iterState m s i)).2).1

/-- The hook's result on iteration `i` (`none` = no override). -/
def hookResAt {σ : Type} (m : menstruator σ) (s : σ) (i : ℕ) :
    Option CycleEvent :=
  (m.cycle_event_hook (hookState0 m (iterState m s i))).1

/-- The whole-day advance of the start date at an iteration whose Python
loop index is nonzero (no `initial_cycle_day` subtraction): the override
interval when the hook fires, the sampled interval otherwise. -/
def posIntervalAt {σ : Type} (m : menstruator σ) (s : σ) (i : ℕ) : ℤ :=
  match hookResAt m s i with
  | some ev => ev.1.days
  | none => (timedelta.ofDays (cycDraw m s i)).days

/-- Start dates of successive cycles when every iteration uses the full
interval (loop positions past the first). -/
def posStartAt {σ : Type} (m : menstruator σ) (s : σ) (start : ℤ) :
    ℕ → ℤ
  | 0 => start + posIntervalAt m s 0
  | j + 1 => posStartAt m s start j + posIntervalAt m s (j + 1)

/-- The full cycle record at such a position. -/
def posCycleAt {σ : Type} (m : menstruator σ) (s : σ) (start : ℤ)
    (j : ℕ) : CycleRecord :=
  (posStartAt m s start j,
   match hookResAt m s j with
   | some ev => (ev.2.1, some ev.2.2)
   | none => (timedelta.ofDays (bldDraw m s j), none))

/-- The whole-day advance of the start date at absolute iteration `i` of a
`generate_cycles` call: iteration 0 additionally subtracts
`initial_cycle_day` (unless the hook fires, which discards the sampled
interval wholesale). -/
def intervalAt {σ : Type} (m : menstruator σ) (s : σ)
    (initial_cycle_day : ℤ) (i : ℕ) : ℤ :=
  match hookResAt m s i with
  | some ev => ev.1.days
  | none =>
    if i = 0 then
      (timedelta.ofDays (cycDraw m s 0)
        - timedelta.ofDays (initial_cycle_day : ℚ)).days
    else (timedelta.ofDays (cycDraw m s i)).days

/-- The start date of the `i`-th emitted cycle. -/
def startAt {σ : Type} (m : menstruator σ) (s : σ)
    (start initial_cycle_day : ℤ) : ℕ → ℤ
  | 0 => start + intervalAt m s initial_cycle_day 0
  | j + 1 => startAt m s start initial_cycle_day j
      + intervalAt m s initial_cycle_day (j + 1)

/-- The `i`-th emitted cycle record. -/
def cycleAt {σ : Type} (m : menstruator σ) (s : σ)
    (start initial_cycle_day : ℤ) (i : ℕ) : CycleRecord :=
  (startAt m s start initial_cycle_day i,
   match hookResAt m s i with
   | some ev => (ev.2.1, some ev.2.2)
   | none => (timedelta.ofDays (bldDraw m s i), none))

/-!
Instrumentation and concrete profiles used by the theorems below.
-/

/-- An observable step of `generate_cycles` against its profile: a
cycle-length draw, a bleed-length draw, or an invocation of the bound
event hook. -/
inductive GenEvent
  | sampleCycle
  | sampleBleed
  | hookCall
deriving DecidableEq

/-- Wrap a profile so that every sampler call and every invocation of the
bound hook appends a `GenEvent` to a log carried alongside the state.  The
wrapped hook runs the original hook on the original profile, so the wrapped
profile behaves identically apart from the log. -/
def instrument {σ : Type} (m : menstruator σ) :
    menstruator (σ × List GenEvent) :=
  { description := m.description
    cycle_length_generator := fun st =>
      let r := m.cycle_length_generator st.1
      (r.1, (r.2, st.2 ++ [GenEvent.sampleCycle]))
    bleed_length_generator := fun st =>
      let r := m.bleed_length_generator st.1
      (r.1, (r.2, st.2 ++ [GenEvent.sampleBleed]))
    event_generator := m.event_generator.map (fun g => fun _ st =>
      let r := g m.tomenstruatorBase st.1
      (r.1, (r.2, st.2 ++ [GenEvent.hookCall]))) }

/-- Constant-sampler profile: cycle length 28, bleed length 5, no hook
(the spec's constant-sampler scenario). -/
def mConst : menstruator Unit :=
  { description := ""
    cycle_length_generator := fun _ => (28, ())
    bleed_length_generator := fun _ => (5, ())
    event_generator := none }

/-- Degenerate profile whose samplers always return 0 (a non-negative
value) and which binds no hook. -/
def mZero : menstruator Unit :=
  { description := ""
    cycle_length_generator := fun _ => (0, ())
    bleed_length_generator := fun _ => (0, ())
    event_generator := none }

/-- Constant-sampler profile with a bound hook that never overrides. -/
def mHook : menstruator Unit :=
  { description := ""
    cycle_length_generator := fun _ => (28, ())
    bleed_length_generator := fun _ => (5, ())
    event_generator := some (fun _ s => (none, s)) }

/-- The constant samplers of `mConst` re-expressed over a different state
type (a counter), drawing the same values. -/
def mN : menstruator ℕ :=
  { description := ""
    cycle_length_generator := fun n => (28, n + 1)
    bleed_length_generator := fun n => (5, n + 1)
    event_generator := none }

/-- A deterministic stand-in for the `random` module: `random()` always
returns 0, `uniform a b` always returns `a`, `gauss mu sigma` always
returns `mu`. -/
def Rcex : RandomModule ℕ :=
  { random := fun n => (0, n)
    uniform := fun a _ n => (a, n)
    gauss := fun mu _ n => (mu, n) }

/-- Profile over a counter state whose cycle-length sampler returns a
different value on every draw (10, 100, 1000, ...), with the
incomplete-pregnancy hook bound at probability 1 so that it always fires. -/
def mCex : menstruator ℕ :=
  { description := ""
    cycle_length_generator := fun n => (((10 ^ (n + 1) : ℕ) : ℚ), n + 1)
    bleed_length_generator := fun n => (5, n)
    event_generator := some (fun self t => check_incomplete_pregnancy Rcex self 1 t) }

/-- The start dates claimed for a run in which no override fires: the first
start is the anchor plus (first sampled length minus `initial_cycle_day`)
days; each later start is the previous start plus that iteration's full
sampled length. -/
def noOverrideStart {σ : Type} (m : menstruator σ) (s : σ)
    (start icd : ℤ) : ℕ → ℤ
  | 0 => start + (timedelta.ofDays (cycDraw m s 0)
      - timedelta.ofDays (icd : ℚ)).days
  | j + 1 => noOverrideStart m s start icd j
      + (timedelta.ofDays (cycDraw m s (j + 1))).days

lemma iterState_zero {σ : Type} (m : menstruator σ) (s : σ) :
    iterState m s 0 = s := rfl

lemma iterState_succ_shift {σ : Type} (m : menstruator σ) (s : σ) (i : ℕ) :
    iterState m s (i + 1) = iterState m (stepState m s) i := by
  simp [iterState, Function.iterate_succ_apply]

lemma cycDraw_shift {σ : Type} (m : menstruator σ) (s : σ) (i : ℕ) :
    cycDraw m s (i + 1) = cycDraw m (stepState m s) i := by
  simp [cycDraw, iterState_succ_shift]

lemma bldDraw_shift {σ : Type} (m : menstruator σ) (s : σ) (i : ℕ) :
    bldDraw m s (i + 1) = bldDraw m (stepState m s) i := by
  simp [bldDraw, iterState_succ_shift]

lemma hookResAt_shift {σ : Type} (m : menstruator σ) (s : σ) (i : ℕ) :
    hookResAt m s (i + 1) = hookResAt m (stepState m s) i := by
  simp [hookResAt, iterState_succ_shift]

lemma posIntervalAt_shift {σ : Type} (m : menstruator σ) (s : σ) (i : ℕ) :
    posIntervalAt m s (i + 1) = posIntervalAt m (stepState m s) i := by
  simp [posIntervalAt, hookResAt_shift, cycDraw_shift]

lemma posStartAt_shift {σ : Type} (m : menstruator σ) (s : σ)
    (start : ℤ) (j : ℕ) :
    posStartAt m s start (j + 1)
      = posStartAt m (stepState m s) (start + posIntervalAt m s 0) j := by
  induction j with
  | zero => simp [posStartAt, posIntervalAt_shift]
  | succ j ih => rw [posStartAt, ih, posIntervalAt_shift, posStartAt]

lemma posCycleAt_shift {σ : Type} (m : menstruator σ) (s : σ)
    (start : ℤ) (j : ℕ) :
    posCycleAt m s start (j + 1)
      = posCycleAt m (stepState m s) (start + posIntervalAt m s 0) j := by
  rw [posCycleAt, posCycleAt, posStartAt_shift, hookResAt_shift, bldDraw_shift]

lemma genLoop_eq_pos {σ : Type} (m : menstruator σ) (icd : ℤ) :
    ∀ (k i : ℕ) (start : ℤ) (s : σ), i ≠ 0 →
      m.genLoop icd k i start s
        = ((List.range k).map (posCycleAt m s start), iterState m s k) := by
  intro k
  induction k with
  | zero => intro i start s _; simp [menstruator.genLoop, iterState]
  | succ k ih =>
    intro i start s hi
    rw [menstruator.genLoop]
    simp only [if_neg hi]
    rw [ih (i + 1) _ _ (Nat.succ_ne_zero i)]
    have hkey : (m.get_bleed_length (m.get_cycle_length s).2).2
        = hookState0 m s := rfl
    rw [hkey]
    have hres : (m.cycle_event_hook (hookState0 m s)).1
        = hookResAt m s 0 := rfl
    have hstep : (m.cycle_event_hook (hookState0 m s)).2 = stepState m s := rfl
    rw [hres, hstep]
    have hrange : List.range (k + 1)
        = 0 :: (List.range k).map Nat.succ := List.range_succ_eq_map k
    rw [hrange]
    simp only [List.map_cons, List.map_map]
    have hc : (m.get_cycle_length s).1 = cycDraw m s 0 := rfl
    have hb : (m.get_bleed_length (m.get_cycle_length s).2).1
        = bldDraw m s 0 := rfl
    cases hev : hookResAt m s 0 with
    | none =>
      have hint : posIntervalAt m s 0
          = (timedelta.ofDays (cycDraw m s 0)).days := by
        rw [posIntervalAt, hev]
      congr 1
      · congr 1
        · rw [posCycleAt, hev, posStartAt, hint, hc, hb]
        · apply List.map_congr_left
          intro j _
          simp only [Function.comp_apply, Nat.succ_eq_add_one]
          rw [posCycleAt_shift, hint, hc]
    | some ev =>
      have hint : posIntervalAt m s 0 = ev.1.days := by
        rw [posIntervalAt, hev]
      congr 1
      · congr 1
        · rw [posCycleAt, hev, posStartAt, hint]
        · apply List.map_congr_left
          intro j _
          simp only [Function.comp_apply, Nat.succ_eq_add_one]
          rw [posCycleAt_shift, hint]

lemma intervalAt_succ {σ : Type} (m : menstruator σ) (s : σ) (icd : ℤ)
    (j : ℕ) :
    intervalAt m s icd (j + 1) = posIntervalAt m (stepState m s) j := by
  rw [intervalAt, posIntervalAt, hookResAt_shift, cycDraw_shift]
  simp

lemma startAt_zero {σ : Type} (m : menstruator σ) (s : σ)
    (start icd : ℤ) :
    startAt m s start icd 0 = start + intervalAt m s icd 0 := rfl

lemma startAt_succ_eq {σ : Type} (m : menstruator σ) (s : σ)
    (start icd : ℤ) (j : ℕ) :
    startAt m s start icd (j + 1)
      = startAt m s start icd j + intervalAt m s icd (j + 1) := rfl

lemma posStartAt_zero {σ : Type} (m : menstruator σ) (s : σ) (start : ℤ) :
    posStartAt m s start 0 = start + posIntervalAt m s 0 := rfl

lemma posStartAt_succ_eq {σ : Type} (m : menstruator σ) (s : σ)
    (start : ℤ) (j : ℕ) :
    posStartAt m s start (j + 1)
      = posStartAt m s start j + posIntervalAt m s (j + 1) := rfl

lemma startAt_succ {σ : Type} (m : menstruator σ) (s : σ)
    (start icd : ℤ) (j : ℕ) :
    startAt m s start icd (j + 1)
      = posStartAt m (stepState m s) (startAt m s start icd 0) j := by
  induction j with
  | zero =>
    rw [startAt_succ_eq, posStartAt_zero, intervalAt_succ]
  | succ j ih =>
    rw [startAt_succ_eq, posStartAt_succ_eq, ih, intervalAt_succ]

lemma cycleAt_succ {σ : Type} (m : menstruator σ) (s : σ)
    (start icd : ℤ) (j : ℕ) :
    cycleAt m s start icd (j + 1)
      = posCycleAt m (stepState m s) (startAt m s start icd 0) j := by
  rw [cycleAt, posCycleAt, startAt_succ, hookResAt_shift, bldDraw_shift]

/-- Master characterization: the list produced by `generate_cycles` is,
record for record, the closed-form trace `cycleAt`. -/
lemma generate_cycles_eq_cycleAt {σ : Type} (m : menstruator σ)
    (start count icd : ℤ) (s : σ) :
    (m.generate_cycles start count icd s).1
      = (List.range count.toNat).map (cycleAt m s start icd) := by
  rw [menstruator.generate_cycles]
  cases hn : count.toNat with
  | zero => simp [menstruator.genLoop]
  | succ k =>
    rw [menstruator.genLoop]
    have hkey : (m.get_bleed_length (m.get_cycle_length s).2).2
        = hookState0 m s := rfl
    rw [hkey]
    have hres : (m.cycle_event_hook (hookState0 m s)).1
        = hookResAt m s 0 := rfl
    have hstep : (m.cycle_event_hook (hookState0 m s)).2 = stepState m s := rfl
    rw [hres, hstep]
    rw [genLoop_eq_pos m icd k 1 _ _ one_ne_zero]
    have hrange : List.range (k + 1)
        = 0 :: (List.range k).map Nat.succ := List.range_succ_eq_map k
    rw [hrange]
    simp only [List.map_cons, List.map_map, if_pos rfl]
    have hc : (m.get_cycle_length s).1 = cycDraw m s 0 := rfl
    have hb : (m.get_bleed_length (m.get_cycle_length s).2).1
        = bldDraw m s 0 := rfl
    cases hev : hookResAt m s 0 with
    | none =>
      have hint : intervalAt m s icd 0
          = (timedelta.ofDays (cycDraw m s 0)
              - timedelta.ofDays (icd : ℚ)).days := by
        rw [intervalAt, hev]
        simp
      congr 1
      · rw [cycleAt, hev, startAt_zero, hint, hc, hb]
        simp
      · apply List.map_congr_left
        intro j _
        simp only [Function.comp_apply, Nat.succ_eq_add_one]
        rw [cycleAt_succ, startAt_zero, hint, hc]
        simp
    | some ev =>
      have hint : intervalAt m s icd 0 = ev.1.days := by
        rw [intervalAt, hev]
      congr 1
      · rw [cycleAt, hev, startAt_zero, hint]
      · apply List.map_congr_left
        intro j _
        simp only [Function.comp_apply, Nat.succ_eq_add_one]
        rw [cycleAt_succ, startAt_zero, hint]

lemma generate_cycles_length {σ : Type} (m : menstruator σ)
    (start count icd : ℤ) (s : σ) :
    (m.generate_cycles start count icd s).1.length = count.toNat := by
  rw [generate_cycles_eq_cycleAt]
  simp

/-- One instrumented loop run equals the plain run plus a log of exactly
`[sampleCycle, sampleBleed, hookCall]` per iteration, provided the hook is
bound. -/
lemma genLoop_instrument {σ : Type} (m : menstruator σ)
    (g : menstruatorBase σ → σ → Option CycleEvent × σ)
    (hg : m.event_generator = some g) (icd : ℤ) :
    ∀ (k i : ℕ) (start : ℤ) (s : σ) (l : List GenEvent),
      (instrument m).genLoop icd k i start (s, l)
        = ((m.genLoop icd k i start s).1,
           ((m.genLoop icd k i start s).2,
            l ++ (List.replicate k
              [GenEvent.sampleCycle, GenEvent.sampleBleed,
               GenEvent.hookCall]).flatten)) := by
  intro k
  induction k with
  | zero => intro i start s l; simp [menstruator.genLoop]
  | succ k ih =>
    intro i start s l
    have hcy : ∀ st : σ × List GenEvent,
        (instrument m).get_cycle_length st
          = ((m.get_cycle_length st.1).1,
             ((m.get_cycle_length st.1).2,
              st.2 ++ [GenEvent.sampleCycle])) := fun _ => rfl
    have hbl : ∀ st : σ × List GenEvent,
        (instrument m).get_bleed_length st
          = ((m.get_bleed_length st.1).1,
             ((m.get_bleed_length st.1).2,
              st.2 ++ [GenEvent.sampleBleed])) := fun _ => rfl
    have hhk : ∀ st : σ × List GenEvent,
        (instrument m).cycle_event_hook st
          = ((m.cycle_event_hook st.1).1,
             ((m.cycle_event_hook st.1).2,
              st.2 ++ [GenEvent.hookCall])) := by
      intro st
      rw [menstruator.cycle_event_hook, menstruator.cycle_event_hook]
      simp only [instrument, hg, Option.map_some]
      rfl
    simp only [menstruator.genLoop]
    simp only [hcy, hbl, hhk]
    cases hev : (m.cycle_event_hook
        (m.get_bleed_length (m.get_cycle_length s).2).2).1 with
    | none =>
      simp only [hev, ih, List.replicate_succ, List.flatten_cons,
        List.append_assoc, List.cons_append, List.nil_append]
    | some ev =>
      simp only [hev, ih, List.replicate_succ, List.flatten_cons,
        List.append_assoc, List.cons_append, List.nil_append]

/-- The loop is deterministic in the draws: if two profiles (over possibly
different random-state representations) yield equal draws and equal hook
results whenever their states are related by `R`, and `R` is preserved by
each call, then related initial states give identical output lists and
related final states. -/
lemma genLoop_bisim {σ₁ σ₂ : Type} (m₁ : menstruator σ₁)
    (m₂ : menstruator σ₂) (R : σ₁ → σ₂ → Prop)
    (Hc : ∀ s₁ s₂, R s₁ s₂ →
      (m₁.get_cycle_length s₁).1 = (m₂.get_cycle_length s₂).1
      ∧ R (m₁.get_cycle_length s₁).2 (m₂.get_cycle_length s₂).2)
    (Hb : ∀ s₁ s₂, R s₁ s₂ →
      (m₁.get_bleed_length s₁).1 = (m₂.get_bleed_length s₂).1
      ∧ R (m₁.get_bleed_length s₁).2 (m₂.get_bleed_length s₂).2)
    (Hh : ∀ s₁ s₂, R s₁ s₂ →
      (m₁.cycle_event_hook s₁).1 = (m₂.cycle_event_hook s₂).1
      ∧ R (m₁.cycle_event_hook s₁).2 (m₂.cycle_event_hook s₂).2)
    (icd : ℤ) :
    ∀ (k i : ℕ) (start : ℤ) (s₁ : σ₁) (s₂ : σ₂), R s₁ s₂ →
      (m₁.genLoop icd k i start s₁).1 = (m₂.genLoop icd k i start s₂).1
      ∧ R (m₁.genLoop icd k i start s₁).2 (m₂.genLoop icd k i start s₂).2 := by
  intro k
  induction k with
  | zero =>
    intro i start s₁ s₂ hR
    exact ⟨rfl, hR⟩
  | succ k ih =>
    intro i start s₁ s₂ hR
    obtain ⟨hc1, hc2⟩ := Hc s₁ s₂ hR
    obtain ⟨hb1, hb2⟩ := Hb _ _ hc2
    obtain ⟨hh1, hh2⟩ := Hh _ _ hb2
    simp only [menstruator.genLoop]
    rw [hh1, hc1, hb1]
    cases hev : (m₂.cycle_event_hook
        (m₂.get_bleed_length (m₂.get_cycle_length s₂).2).2).1 with
    | none =>
      obtain ⟨ih1, ih2⟩ := ih (i + 1)
        (start + (if i = 0 then
            timedelta.ofDays (m₂.get_cycle_length s₂).1
              - timedelta.ofDays (icd : ℚ)
          else timedelta.ofDays (m₂.get_cycle_length s₂).1).days)
        _ _ hh2
      exact ⟨by rw [ih1], ih2⟩
    | some ev =>
      obtain ⟨ih1, ih2⟩ := ih (i + 1) (start + ev.1.days) _ _ hh2
      exact ⟨by rw [ih1], ih2⟩

/-- C1: for every profile, start date, non-negative count and
initial_cycle_day, `generate_cycles` returns exactly `count` cycle
records. -/
theorem generate_cycles_count_exact {σ : Type} (m : menstruator σ)
    (start_date count initial_cycle_day : ℤ) (s : σ) (hcount : 0 ≤ count) :
    ((m.generate_cycles start_date count initial_cycle_day s).1.length : ℤ)
      = count := by
  rw [generate_cycles_length]
  exact Int.toNat_of_nonneg hcount

/-- Witness for C1 at a concrete profile and count. -/
theorem generate_cycles_count_exact_witness :
    ((mConst.generate_cycles 0 3 0 ()).1.length : ℤ) = 3 :=
  generate_cycles_count_exact mConst 0 3 0 () (by decide)

/-- C5: the spec's constant-sampler scenario — cycle length 28, bleed
length 5, no hook, anchor 2024-01-01, count 3, initial_cycle_day 0 —
produces exactly the three records (2024-01-29, 5 days, no note),
(2024-02-26, 5 days, no note), (2024-03-25, 5 days, no note). -/
theorem generate_cycles_constant_scenario :
    mConst.generate_cycles (toordinal 2024 1 1) 3 0 ()
      = ([(toordinal 2024 1 29, timedelta.ofDays 5, none),
          (toordinal 2024 2 26, timedelta.ofDays 5, none),
          (toordinal 2024 3 25, timedelta.ofDays 5, none)], ()) := by
  decide

/-- C9: the default-profile factory draws `user_cycle_mu` and then
`user_cycle_sigma` exactly once each at construction (the final random
state is the state after exactly those two `gauss` calls); the returned
profile's cycle-length sampler calls `gauss(user_cycle_mu,
user_cycle_sigma)` on every invocation, and its bleed-length sampler calls
the fixed population-level `gauss(4.0, 1.5)`, not a personalised one. -/
theorem create_default_menstruator_spec {σ : Type} (R : RandomModule σ)
    (s : σ) :
    (create_default_menstruator R s).2
      = (R.gauss 2.6 2.5 (R.gauss 29.3 5.2 s).2).2
    ∧ (∀ t, (create_default_menstruator R s).1.get_cycle_length t
        = R.gauss (R.gauss 29.3 5.2 s).1
            (R.gauss 2.6 2.5 (R.gauss 29.3 5.2 s).2).1 t)
    ∧ (∀ t, (create_default_menstruator R s).1.get_bleed_length t
        = R.gauss 4.0 1.5 t) :=
  ⟨rfl, fun _ => rfl, fun _ => rfl⟩

/-- C10: for any profile, start date and initial_cycle_day, a zero or
negative count yields the empty sequence, the random state untouched, and
— per the instrumented run — no sampler call and no hook call at all. -/
theorem generate_cycles_nonpositive_count {σ : Type} (m : menstruator σ)
    (start count initial_cycle_day : ℤ) (s : σ) (hcount : count ≤ 0) :
    m.generate_cycles start count initial_cycle_day s = ([], s)
    ∧ (instrument m).generate_cycles start count initial_cycle_day (s, [])
        = ([], (s, [])) := by
  have h0 : count.toNat = 0 := Int.toNat_of_nonpos hcount
  constructor
  · rw [menstruator.generate_cycles, h0]
    rfl
  · rw [menstruator.generate_cycles, h0]
    rfl

/-- Witness for C10 at a concrete profile (with a bound hook) and a
negative count. -/
theorem generate_cycles_nonpositive_count_witness :
    mHook.generate_cycles 0 (-1) 0 () = ([], ())
    ∧ (instrument mHook).generate_cycles 0 (-1) 0 ((), []) = ([], ((), [])) :=
  generate_cycles_nonpositive_count mHook 0 (-1) 0 () (by decide)

/-- C8: `generate_cycles` is deterministic in the random stream — two
calls with identical arguments whose samplers and hooks produce the same
draws (related via any bisimulation `R` of their random states) produce
identical output sequences, element for element. -/
theorem generate_cycles_deterministic {σ₁ σ₂ : Type} (m₁ : menstruator σ₁)
    (m₂ : menstruator σ₂) (R : σ₁ → σ₂ → Prop)
    (Hc : ∀ s₁ s₂, R s₁ s₂ →
      (m₁.get_cycle_length s₁).1 = (m₂.get_cycle_length s₂).1
      ∧ R (m₁.get_cycle_length s₁).2 (m₂.get_cycle_length s₂).2)
    (Hb : ∀ s₁ s₂, R s₁ s₂ →
      (m₁.get_bleed_length s₁).1 = (m₂.get_bleed_length s₂).1
      ∧ R (m₁.get_bleed_length s₁).2 (m₂.get_bleed_length s₂).2)
    (Hh : ∀ s₁ s₂, R s₁ s₂ →
      (m₁.cycle_event_hook s₁).1 = (m₂.cycle_event_hook s₂).1
      ∧ R (m₁.cycle_event_hook s₁).2 (m₂.cycle_event_hook s₂).2)
    (start count initial_cycle_day : ℤ) (s₁ : σ₁) (s₂ : σ₂)
    (hR : R s₁ s₂) :
    (m₁.generate_cycles start count initial_cycle_day s₁).1
      = (m₂.generate_cycles start count initial_cycle_day s₂).1 :=
  (genLoop_bisim m₁ m₂ R Hc Hb Hh initial_cycle_day count.toNat 0 start
    s₁ s₂ hR).1

/-- Witness for C8: the same constant draw stream realised over two
different state types gives identical outputs. -/
theorem generate_cycles_deterministic_witness :
    (mConst.generate_cycles 0 2 0 ()).1 = (mN.generate_cycles 0 2 0 5).1 :=
  generate_cycles_deterministic mConst mN (fun _ _ => True)
    (fun _ _ _ => ⟨rfl, trivial⟩) (fun _ _ _ => ⟨rfl, trivial⟩)
    (fun _ _ _ => ⟨rfl, trivial⟩) 0 2 0 () 5 trivial

/-- C7: with a bound hook, the instrumented run shows the profile is
consulted in the pattern cycle-draw, bleed-draw, hook-call — exactly once
per generated cycle, so exactly `count` hook invocations, each strictly
after that cycle's two samples; the instrumented outputs coincide with the
plain run's, and the hook receives the profile as its only argument. -/
theorem generate_cycles_hook_once_per_cycle {σ : Type} (m : menstruator σ)
    (g : menstruatorBase σ → σ → Option CycleEvent × σ)
    (hg : m.event_generator = some g)
    (start count initial_cycle_day : ℤ) (s : σ) (_hcount : 0 ≤ count) :
    ((instrument m).generate_cycles start count initial_cycle_day
        (s, [])).2.2
      = (List.replicate count.toNat
          [GenEvent.sampleCycle, GenEvent.sampleBleed,
           GenEvent.hookCall]).flatten
    ∧ ((instrument m).generate_cycles start count initial_cycle_day
        (s, [])).1
      = (m.generate_cycles start count initial_cycle_day s).1
    ∧ ∀ t, m.cycle_event_hook t = g m.tomenstruatorBase t := by
  have h := genLoop_instrument m g hg initial_cycle_day count.toNat 0 start s []
  rw [menstruator.generate_cycles, menstruator.generate_cycles, h]
  refine ⟨by simp, rfl, fun t => ?_⟩
  rw [menstruator.cycle_event_hook, hg]

/-- Witness for C7: two cycles with a bound (never-firing) hook log the
pattern twice. -/
theorem generate_cycles_hook_once_per_cycle_witness :
    ((instrument mHook).generate_cycles 0 2 0 ((), [])).2.2
      = [GenEvent.sampleCycle, GenEvent.sampleBleed, GenEvent.hookCall,
         GenEvent.sampleCycle, GenEvent.sampleBleed, GenEvent.hookCall] := by
  have h := (generate_cycles_hook_once_per_cycle mHook
    (fun _ s => (none, s)) rfl 0 2 0 () (by decide)).1
  rw [h]
  decide

lemma one_le_intervalAt {σ : Type} (m : menstruator σ) (s : σ) (icd : ℤ)
    (n : ℕ)
    (hcyc : ∀ i, i < n → 1 ≤ (timedelta.ofDays (cycDraw m s i)).days)
    (hhook : ∀ i, i < n → match hookResAt m s i with
      | some ev => 1 ≤ ev.1.days
      | none => True)
    (t : ℕ) (ht : t < n) (ht0 : t ≠ 0) : 1 ≤ intervalAt m s icd t := by
  have h2 := hhook t ht
  cases hre : hookResAt m s t with
  | some ev =>
    have h3 : intervalAt m s icd t = ev.1.days := by rw [intervalAt, hre]
    rw [h3]
    rw [hre] at h2
    exact h2
  | none =>
    have h3 : intervalAt m s icd t
        = (timedelta.ofDays (cycDraw m s t)).days := by
      rw [intervalAt, hre]
      simp [ht0]
    rw [h3]
    exact hcyc t ht

lemma startAt_strictMono {σ : Type} (m : menstruator σ) (s : σ)
    (start icd : ℤ) (n : ℕ)
    (hcyc : ∀ i, i < n → 1 ≤ (timedelta.ofDays (cycDraw m s i)).days)
    (hhook : ∀ i, i < n → match hookResAt m s i with
      | some ev => 1 ≤ ev.1.days
      | none => True) :
    ∀ i j, i < j → j < n →
      startAt m s start icd i < startAt m s start icd j := by
  intro i j
  induction j with
  | zero => intro h _; exact absurd h (Nat.not_lt_zero i)
  | succ j ihj =>
    intro hij hjn
    have h2 : 1 ≤ intervalAt m s icd (j + 1) :=
      one_le_intervalAt m s icd n hcyc hhook (j + 1) hjn (Nat.succ_ne_zero j)
    rcases Nat.lt_succ_iff_lt_or_eq.mp hij with h | h
    · have h1 := ihj h (Nat.lt_of_succ_lt hjn)
      rw [startAt_succ_eq]
      linarith
    · subst h
      rw [startAt_succ_eq]
      linarith

/-- C2 (amended): the start dates are strictly increasing in iteration
order provided every sampled cycle length converts to a timedelta spanning
at least one whole day, and every override interval likewise spans at
least one whole day — for every initial_cycle_day.  (Non-negativity alone
is not enough: date arithmetic advances by the whole-day part of the
interval, so a zero — or sub-one-day — interval repeats a start date.) -/
theorem generate_cycles_strict_increase {σ : Type} (m : menstruator σ)
    (start_date count initial_cycle_day : ℤ) (s : σ)
    (hcyc : ∀ i, i < count.toNat →
      1 ≤ (timedelta.ofDays (cycDraw m s i)).days)
    (hhook : ∀ i, i < count.toNat → match hookResAt m s i with
      | some ev => 1 ≤ ev.1.days
      | none => True) :
    List.Pairwise (fun a b : ℤ => a < b)
      ((m.generate_cycles start_date count initial_cycle_day s).1.map
        Prod.fst) := by
  rw [generate_cycles_eq_cycleAt, List.map_map]
  have hfst : Prod.fst ∘ cycleAt m s start_date initial_cycle_day
      = startAt m s start_date initial_cycle_day := funext fun i => rfl
  rw [hfst]
  rw [List.pairwise_iff_getElem]
  intro i j h1 h2 hij
  simp only [List.length_map, List.length_range] at h1 h2
  simp only [List.getElem_map, List.getElem_range]
  exact startAt_strictMono m s start_date initial_cycle_day count.toNat
    hcyc hhook i j hij h2

/-- Witness for C2 (amended) at the constant 28-day profile. -/
theorem generate_cycles_strict_increase_witness :
    List.Pairwise (fun a b : ℤ => a < b)
      ((mConst.generate_cycles 0 2 0 ()).1.map Prod.fst) :=
  generate_cycles_strict_increase mConst 0 2 0 () (by decide)
    (fun _ _ => trivial)

/-- C2 (counterexample): a cycle-length sampler that always returns 0
returns only non-negative values and no override ever fires, yet with
count 2 the two start dates coincide — they are not strictly increasing,
refuting the claim's "non-negative sampler values suffice" hypothesis. -/
theorem strict_increase_nonneg_counterexample :
    (mZero.get_cycle_length ()).1 = 0
    ∧ mZero.event_generator = none
    ∧ (mZero.generate_cycles 0 2 0 ()).1.map Prod.fst = [0, 0]
    ∧ ¬ List.Pairwise (fun a b : ℤ => a < b)
        ((mZero.generate_cycles 0 2 0 ()).1.map Prod.fst) :=
  ⟨by decide, rfl, by decide, by decide⟩

lemma noOverrideStart_zero {σ : Type} (m : menstruator σ) (s : σ)
    (start icd : ℤ) :
    noOverrideStart m s start icd 0
      = start + (timedelta.ofDays (cycDraw m s 0)
          - timedelta.ofDays (icd : ℚ)).days := rfl

lemma noOverrideStart_succ_eq {σ : Type} (m : menstruator σ) (s : σ)
    (start icd : ℤ) (j : ℕ) :
    noOverrideStart m s start icd (j + 1)
      = noOverrideStart m s start icd j
        + (timedelta.ofDays (cycDraw m s (j + 1))).days := rfl

lemma startAt_eq_noOverride {σ : Type} (m : menstruator σ) (s : σ)
    (start icd : ℤ) (n : ℕ)
    (hnone : ∀ i, i < n → hookResAt m s i = none) :
    ∀ i, i < n →
      startAt m s start icd i = noOverrideStart m s start icd i := by
  intro i
  induction i with
  | zero =>
    intro h0
    have h3 : intervalAt m s icd 0
        = (timedelta.ofDays (cycDraw m s 0)
            - timedelta.ofDays (icd : ℚ)).days := by
      rw [intervalAt, hnone 0 h0]
      simp
    rw [startAt_zero, h3, noOverrideStart_zero]
  | succ i ihi =>
    intro h
    have h3 : intervalAt m s icd (i + 1)
        = (timedelta.ofDays (cycDraw m s (i + 1))).days := by
      rw [intervalAt, hnone (i + 1) h]
      simp
    rw [startAt_succ_eq, ihi (Nat.lt_of_succ_lt h), h3,
      noOverrideStart_succ_eq]

/-- C4: in a call where no override fires, the first emitted start date is
the anchor plus (first sampled cycle length minus initial_cycle_day) days,
and each subsequent start date is the previous one plus that iteration's
full sampled cycle length — the offset is subtracted only at iteration
0. -/
theorem generate_cycles_no_override_starts {σ : Type} (m : menstruator σ)
    (start_date count initial_cycle_day : ℤ) (s : σ)
    (hnone : ∀ i, i < count.toNat → hookResAt m s i = none) :
    (m.generate_cycles start_date count initial_cycle_day s).1.map Prod.fst
      = (List.range count.toNat).map
          (noOverrideStart m s start_date initial_cycle_day) := by
  rw [generate_cycles_eq_cycleAt, List.map_map]
  have hfst : Prod.fst ∘ cycleAt m s start_date initial_cycle_day
      = startAt m s start_date initial_cycle_day := funext fun i => rfl
  rw [hfst]
  apply List.map_congr_left
  intro i hi
  rw [List.mem_range] at hi
  exact startAt_eq_noOverride m s start_date initial_cycle_day
    count.toNat hnone i hi

/-- Witness for C4: the spec's offset scenario (constant 28-day sampler,
initial_cycle_day 10, anchor 2024-01-01) puts the first start 18 days
after the anchor and the rest 28 days apart. -/
theorem generate_cycles_no_override_starts_witness :
    (mConst.generate_cycles (toordinal 2024 1 1) 3 10 ()).1.map Prod.fst
      = [toordinal 2024 1 19, toordinal 2024 2 16, toordinal 2024 3 15] := by
  have h := generate_cycles_no_override_starts mConst (toordinal 2024 1 1)
    3 10 () (fun _ _ => rfl)
  rw [h]
  decide

lemma mCex_hook_eval :
    mCex.cycle_event_hook 1
      = (some (timedelta.ofDays 200, timedelta.ofDays 5,
          "Was pregnant, aborted or miscarried"), 2) := by
  have h1 : mCex.cycle_event_hook 1
      = check_incomplete_pregnancy Rcex mCex.tomenstruatorBase 1 1 := rfl
  rw [h1, check_incomplete_pregnancy]
  have h2 : (Rcex.random 1).1 < 1 := by decide
  simp only [if_pos h2]
  have h3 : ((mCex.tomenstruatorBase.get_cycle_length
      (Rcex.random 1).2).1
        * (Rcex.uniform 2 3
            (mCex.tomenstruatorBase.get_cycle_length
              (Rcex.random 1).2).2).1) = 200 := by
    norm_num [mCex, Rcex, menstruatorBase.get_cycle_length]
  rw [h3]
  decide

lemma mCex_hookResAt :
    hookResAt mCex 0 0
      = some (timedelta.ofDays 200, timedelta.ofDays 5,
          "Was pregnant, aborted or miscarried") := by
  have h : hookResAt mCex 0 0 = (mCex.cycle_event_hook 1).1 := rfl
  rw [h, mCex_hook_eval]


/-- C3 (amended): when the module's `random()` draw falls below `p` the
hook fires and returns an override whose cycle length is a FRESH draw from
the profile's cycle-length sampler (made inside the hook — the cycle's
originally sampled length is not reused) multiplied by a single
`uniform(2, 3)` draw, whose bleed length is a fresh bleed draw, together
with the explanatory note; otherwise it returns no override. -/
theorem check_incomplete_pregnancy_spec {σ : Type} (R : RandomModule σ)
    (user : menstruatorBase σ) (p : ℚ) (s : σ) :
    ((R.random s).1 < p →
      check_incomplete_pregnancy R user p s
        = (some (timedelta.ofDays
              ((user.get_cycle_length (R.random s).2).1
                * (R.uniform 2 3 (user.get_cycle_length (R.random s).2).2).1),
            timedelta.ofDays
              (user.get_bleed_length
                (R.uniform 2 3 (user.get_cycle_length (R.random s).2).2).2).1,
            "Was pregnant, aborted or miscarried"),
           (user.get_bleed_length
             (R.uniform 2 3 (user.get_cycle_length (R.random s).2).2).2).2))
    ∧ (¬ (R.random s).1 < p →
      check_incomplete_pregnancy R user p s = (none, (R.random s).2)) := by
  constructor
  · intro h
    rw [check_incomplete_pregnancy]
    simp only [if_pos h]
  · intro h
    rw [check_incomplete_pregnancy]
    simp only [if_neg h]

/-- Witness for C3 (amended): with the deterministic random module and the
counter-state profile, the hook fires and returns the fresh draw (100)
times the uniform draw (2). -/
theorem check_incomplete_pregnancy_spec_witness :
    check_incomplete_pregnancy Rcex mCex.tomenstruatorBase 1 1
      = (some (timedelta.ofDays 200, timedelta.ofDays 5,
          "Was pregnant, aborted or miscarried"), 2) := by
  have h := (check_incomplete_pregnancy_spec Rcex mCex.tomenstruatorBase
    1 1).1 (by decide)
  rw [h]
  have h2 : ((mCex.tomenstruatorBase.get_cycle_length
      (Rcex.random 1).2).1
        * (Rcex.uniform 2 3
            (mCex.tomenstruatorBase.get_cycle_length
              (Rcex.random 1).2).2).1) = 200 := by
    norm_num [mCex, Rcex, menstruatorBase.get_cycle_length]
  rw [h2]
  decide

/-- C3 (counterexample): at cycle 0 of this run the originally sampled
cycle length is 10 days and the hook's single uniform draw is 2, so the
claim predicts an override interval of 10 × 2 = 20 days; the code instead
emits 200 days (a fresh sample, 100, times the uniform draw), because
`check_incomplete_pregnancy` re-samples the cycle length rather than
reusing the originally sampled one. -/
theorem check_incomplete_pregnancy_fresh_draw_counterexample :
    (mCex.get_cycle_length 0).1 = 10
    ∧ (Rcex.uniform 2 3 2).1 = 2
    ∧ (mCex.generate_cycles 0 1 0 0).1
        = [(200, timedelta.ofDays 5,
            some "Was pregnant, aborted or miscarried")]
    ∧ (timedelta.ofDays ((10 : ℚ) * 2)).days = 20
    ∧ (200 : ℤ) ≠ 20 := by
  refine ⟨by decide, by decide, ?_, ?_, by decide⟩
  · rw [generate_cycles_eq_cycleAt]
    have h4 : cycleAt mCex 0 0 0 0
        = (200, timedelta.ofDays 5,
           some "Was pregnant, aborted or miscarried") := by
      rw [cycleAt, mCex_hookResAt, startAt_zero, intervalAt, mCex_hookResAt]
      decide
    rw [show ((1 : ℤ).toNat) = 1 from rfl,
      show List.range 1 = [0] from rfl]
    simp [h4]
  · have h7 : ((10 : ℚ) * 2) = 20 := by norm_num
    rw [h7]
    decide

/-- C6: on a cycle where the hook returns an override, the emitted record
advances the previous start date by exactly the override's interval and
carries exactly the override's bleed length and note (not the sampled
ones); on a cycle where the hook returns nothing, the record carries the
sampled bleed length and its note is `None`. -/
theorem generate_cycles_override_exact {σ : Type} (m : menstruator σ)
    (start_date count initial_cycle_day : ℤ) (s : σ) (i : ℕ)
    (hi : i < count.toNat) :
    (∀ ev : CycleEvent, hookResAt m s i = some ev →
      (m.generate_cycles start_date count initial_cycle_day s).1.getD i
          (0, ⟨0⟩, none)
        = ((if i = 0 then start_date
            else ((m.generate_cycles start_date count
                initial_cycle_day s).1.getD (i - 1) (0, ⟨0⟩, none)).1)
              + ev.1.days,
           ev.2.1, some ev.2.2))
    ∧ (hookResAt m s i = none →
      ((m.generate_cycles start_date count initial_cycle_day s).1.getD i
          (0, ⟨0⟩, none)).2
        = (timedelta.ofDays (bldDraw m s i), none)) := by
  have hget : ∀ j, j < count.toNat →
      (m.generate_cycles start_date count initial_cycle_day s).1.getD j
          (0, ⟨0⟩, none)
        = cycleAt m s start_date initial_cycle_day j := by
    intro j hj
    rw [generate_cycles_eq_cycleAt]
    have hlen : j < ((List.range count.toNat).map
        (cycleAt m s start_date initial_cycle_day)).length := by
      simpa using hj
    rw [List.getD_eq_getElem _ _ hlen]
    simp
  constructor
  · intro ev hev
    cases i with
    | zero =>
      have hint : intervalAt m s initial_cycle_day 0 = ev.1.days := by
        rw [intervalAt, hev]
      rw [hget 0 hi, cycleAt, hev, startAt_zero, hint]
      simp
    | succ j =>
      have hint : intervalAt m s initial_cycle_day (j + 1)
          = ev.1.days := by
        rw [intervalAt, hev]
      have hprev : (m.generate_cycles start_date count
          initial_cycle_day s).1.getD (j + 1 - 1) (0, ⟨0⟩, none)
            = cycleAt m s start_date initial_cycle_day j := by
        rw [show j + 1 - 1 = j from rfl, hget j (Nat.lt_of_succ_lt hi)]
      rw [hget (j + 1) hi, cycleAt, hev, startAt_succ_eq, hint, hprev]
      simp [cycleAt]
  · intro hev
    rw [hget i hi, cycleAt, hev]

/-- Witness for C6: at cycle 0 of the always-firing profile, the emitted
record is the anchor advanced by the override's 200-day interval, with
the override's bleed length and note. -/
theorem generate_cycles_override_exact_witness :
    (mCex.generate_cycles 0 1 0 0).1.getD 0 (0, ⟨0⟩, none)
      = (200, timedelta.ofDays 5,
         some "Was pregnant, aborted or miscarried") := by
  have h := (generate_cycles_override_exact mCex 0 1 0 0 0 (by decide)).1
    (timedelta.ofDays 200, timedelta.ofDays 5,
     "Was pregnant, aborted or miscarried") mCex_hookResAt
  rw [h]
  decide
